import Mathlib

/-
Shallow embedding of the Monopoly service (src/monopolyService.ts): a small
HTTP API over three relational tables (Player, Game, PlayerGame) backed by
PostgreSQL through pg-promise.  The store is modelled as lists of rows; each
Express handler becomes a pure function from the store state and the request
data to the new store state and the response action.  Statement failures at
the store (connectivity, type errors, constraint violations) are modelled by
an `Option String` parameter per statement: `some err` means the statement
raised `err`.  pg-promise's client-side result-shape checks (`one`,
`oneOrNone`) are modelled on the list of rows a statement returns, and the
`db.tx` combinator's semantics (commit all, or roll back on any rejection)
is reflected in the delete handlers returning the original state whenever
anything inside the transaction rejects.
-/

namespace MonopolyService

/-- Row of the Player table: integer primary key assigned by the store, email, name. -/
structure Player where
  id : Nat
  email : String
  name : String
deriving Repr, DecidableEq

/-- Row of the Game table: integer primary key. -/
structure Game where
  id : Nat
deriving Repr, DecidableEq

/-- Row of the PlayerGame join table: player identifier, game identifier, score. -/
structure PlayerGame where
  playerID : Nat
  gameID : Nat
  score : Int
deriving Repr, DecidableEq

/-- State of the relational store backing the service. -/
structure DB where
  players : List Player
  games : List Game
  playerGames : List PlayerGame
deriving Repr, DecidableEq

/-- Shape of a row produced by a RETURNING id clause. -/
structure IdRow where
  id : Nat
deriving Repr, DecidableEq

/-- A JavaScript value as resolved by the data-access layer: undefined, null, or a value. -/
inductive JsValue (α : Type) where
  | undefined
  | nullV
  | val (a : α)
deriving Repr, DecidableEq

/-- JavaScript loose equality against null (data == null): true exactly on null and undefined. -/
def looseEqNull {α : Type} : JsValue α → Bool
  | .undefined => true
  | .nullV => true
  | .val _ => false

/-- pg-promise resolves oneOrNone with the row itself or null, never undefined. -/
def jsOfOption {α : Type} : Option α → JsValue α
  | none => .nullV
  | some a => .val a

/-- The response action a handler performs on the Express response object:
send a body, send a bare status code, or send a status with a JSON error body. -/
inductive HttpResponse (α : Type) where
  | send (body : α)
  | sendStatus (code : Nat)
  | statusJson (code : Nat) (errorBody : String)
deriving Repr, DecidableEq

/-- Central Express error middleware (app.use after all routes): logs the error
message and stack server-side and answers 500 with a fixed generic JSON body
that does not depend on the error. -/
def errorHandler {α : Type} (_err : String) : HttpResponse α :=
  .statusJson 500 "An internal server error occurred"

/-- Utility function returnDataOr404: sendStatus 404 when data == null under
JavaScript loose equality, otherwise send the data unchanged. -/
def returnDataOr404 {α : Type} (data : JsValue α) : HttpResponse (JsValue α) :=
  if looseEqNull data then .sendStatus 404 else .send data

/-- pg-promise oneOrNone on the rows a statement returned: resolves null on zero
rows, the row on exactly one, and rejects on more than one. -/
def oneOrNone {α : Type} : List α → Except String (Option α)
  | [] => .ok none
  | [a] => .ok (some a)
  | _ => .error "Multiple rows were not expected."

/-- pg-promise one on the rows a statement returned: resolves the row when there
is exactly one, and rejects on zero rows or on more than one. -/
def one {α : Type} : List α → Except String α
  | [] => .error "No data returned from the query."
  | [a] => .ok a
  | _ => .error "Multiple rows were not expected."

/-- GET /players: SELECT * FROM Player via manyOrNone; rows are sent in store
order (no ORDER BY); a statement error is forwarded to the error middleware. -/
def readPlayers (db : DB) (fail : Option String) : HttpResponse (List Player) :=
  match fail with
  | some err => errorHandler err
  | none => .send db.players

/-- GET /players/:id: SELECT * FROM Player WHERE id matches, via oneOrNone,
then returnDataOr404 on the optional row. -/
def readPlayer (db : DB) (pid : Nat) (fail : Option String) : HttpResponse (JsValue Player) :=
  match fail with
  | some err => errorHandler err
  | none =>
    match oneOrNone (db.players.filter (fun p => p.id == pid)) with
    | .error err => errorHandler err
    | .ok data => returnDataOr404 (jsOfOption data)

/-- PUT /players/:id: UPDATE Player SET email, name WHERE id matches
RETURNING id, via oneOrNone, then returnDataOr404 on the optional id row.
The UPDATE itself commits as a single statement; the oneOrNone shape check
happens client-side on the returned rows. -/
def updatePlayer (db : DB) (pid : Nat) (email name : String) (fail : Option String) :
    DB × HttpResponse (JsValue IdRow) :=
  match fail with
  | some err => (db, errorHandler err)
  | none =>
    let db1 : DB := { db with players := db.players.map (fun p =>
      if p.id == pid then { p with email := email, name := name } else p) }
    let returned : List IdRow :=
      (db.players.filter (fun p => p.id == pid)).map (fun p => IdRow.mk p.id)
    match oneOrNone returned with
    | .error err => (db1, errorHandler err)
    | .ok data => (db1, returnDataOr404 (jsOfOption data))

/-- POST /players: INSERT INTO Player(email, name) RETURNING id, via one.
The store assigns the identifiers of the inserted rows; assignedIds is the
list of ids the store reports back (one per inserted row). -/
def createPlayer (db : DB) (email name : String) (assignedIds : List Nat)
    (fail : Option String) : DB × HttpResponse IdRow :=
  match fail with
  | some err => (db, errorHandler err)
  | none =>
    let db1 : DB :=
      { db with players := db.players ++ assignedIds.map (fun i => Player.mk i email name) }
    match one (assignedIds.map IdRow.mk) with
    | .error err => (db1, errorHandler err)
    | .ok row => (db1, .send row)

/-- DELETE /players/:id, inside one db.tx transaction: first DELETE FROM
PlayerGame WHERE playerID matches (via t.none), then DELETE FROM Player WHERE
id matches RETURNING id (via t.oneOrNone).  Any rejection inside the
transaction (a failing statement, or oneOrNone seeing more than one row)
rolls the whole transaction back, leaving the store unchanged, and the error
is forwarded to the error middleware; otherwise both deletions commit and the
optional id row goes through returnDataOr404. -/
def deletePlayer (db : DB) (pid : Nat) (fail1 fail2 : Option String) :
    DB × HttpResponse (JsValue IdRow) :=
  match fail1 with
  | some err => (db, errorHandler err)
  | none =>
    let db1 : DB := { db with playerGames := db.playerGames.filter (fun pg => !(pg.playerID == pid)) }
    match fail2 with
    | some err => (db, errorHandler err)
    | none =>
      let returned : List IdRow :=
        (db1.players.filter (fun p => p.id == pid)).map (fun p => IdRow.mk p.id)
      let db2 : DB := { db1 with players := db1.players.filter (fun p => !(p.id == pid)) }
      match oneOrNone returned with
      | .error err => (db, errorHandler err)
      | .ok data => (db2, returnDataOr404 (jsOfOption data))

/-- GET /games: SELECT * FROM Game ORDER BY id, via manyOrNone. -/
def readGamesRows (db : DB) : List Game :=
  db.games.mergeSort (fun a b => decide (a.id ≤ b.id))

/-- GET /games handler: sends the ordered game rows, or forwards a statement error. -/
def readGames (db : DB) (fail : Option String) : HttpResponse (List Game) :=
  match fail with
  | some err => errorHandler err
  | none => .send (readGamesRows db)

/-- Result row of the GET /games/:id join: the joined player's id, name, email
and that player's score in the game. -/
structure GamePlayerRow where
  id : Nat
  name : String
  email : String
  score : Int
deriving Repr, DecidableEq

/-- The join SELECT Player.id, Player.name, Player.email, PlayerGame.score FROM
PlayerGame JOIN Player ON Player.id = PlayerGame.playerID WHERE
PlayerGame.gameID matches, before ORDER BY: every PlayerGame row of the game
paired with every Player row whose id equals its playerID. -/
def gamePlayersJoin (db : DB) (gid : Nat) : List GamePlayerRow :=
  (db.playerGames.filter (fun pg => pg.gameID == gid)).flatMap (fun pg =>
    (db.players.filter (fun p => p.id == pg.playerID)).map (fun p =>
      GamePlayerRow.mk p.id p.name p.email pg.score))

/-- The rows GET /games/:id sends: the join ordered by PlayerGame.playerID
(equal to the row's id field by the join condition). -/
def readGamePlayersRows (db : DB) (gid : Nat) : List GamePlayerRow :=
  (gamePlayersJoin db gid).mergeSort (fun a b => decide (a.id ≤ b.id))

/-- GET /games/:id handler: sends the ordered join rows via manyOrNone (an empty
result is sent as an empty array, never as 404), or forwards a statement error. -/
def readGamePlayers (db : DB) (gid : Nat) (fail : Option String) :
    HttpResponse (List GamePlayerRow) :=
  match fail with
  | some err => errorHandler err
  | none => .send (readGamePlayersRows db gid)

/-- DELETE /games/:id, inside one db.tx transaction: first DELETE FROM
PlayerGame WHERE gameID matches (via t.none), then DELETE FROM Game WHERE id
matches RETURNING id (via t.oneOrNone); rollback and response shaping exactly
as in deletePlayer. -/
def deleteGame (db : DB) (gid : Nat) (fail1 fail2 : Option String) :
    DB × HttpResponse (JsValue IdRow) :=
  match fail1 with
  | some err => (db, errorHandler err)
  | none =>
    let db1 : DB := { db with playerGames := db.playerGames.filter (fun pg => !(pg.gameID == gid)) }
    match fail2 with
    | some err => (db, errorHandler err)
    | none =>
      let returned : List IdRow :=
        (db1.games.filter (fun g => g.id == gid)).map (fun g => IdRow.mk g.id)
      let db2 : DB := { db1 with games := db1.games.filter (fun g => !(g.id == gid)) }
      match oneOrNone returned with
      | .error err => (db, errorHandler err)
      | .ok data => (db2, returnDataOr404 (jsOfOption data))

/-- Referential integrity of the join table: every PlayerGame row references an
existing Player row and an existing Game row (no orphaned join rows). -/
def noOrphans (db : DB) : Prop :=
  ∀ pg ∈ db.playerGames,
    pg.playerID ∈ db.players.map Player.id ∧ pg.gameID ∈ db.games.map Game.id

/-- A concrete store state used by the witness theorems. -/
def dbEx : DB :=
  { players := [Player.mk 1 "alice@calvin.edu" "Alice", Player.mk 3 "bob@calvin.edu" "Bob"],
    games := [Game.mk 2, Game.mk 5],
    playerGames := [PlayerGame.mk 1 2 100, PlayerGame.mk 3 5 20, PlayerGame.mk 1 5 7] }

/-! Helper lemmas about filtering by a key. -/

/-- Filtering to a key that occurs nowhere in the list gives the empty list. -/
theorem filter_key_eq_nil {α : Type} (key : α → Nat) (l : List α) (x : Nat)
    (hx : x ∉ l.map key) : l.filter (fun a => key a == x) = [] := by
  apply List.filter_eq_nil_iff.mpr
  intro a ha
  simp only [beq_iff_eq]
  intro h
  exact hx (h ▸ List.mem_map_of_mem key ha)

/-- With pairwise distinct keys, filtering to the key of a member leaves exactly
that member. -/
theorem filter_key_eq_singleton {α : Type} (key : α → Nat) (l : List α) (a : α)
    (hnd : (l.map key).Nodup) (ha : a ∈ l) :
    l.filter (fun b => key b == key a) = [a] := by
  induction l with
  | nil => cases ha
  | cons b t ih =>
    simp only [List.map_cons, List.nodup_cons] at hnd
    rcases List.mem_cons.mp ha with h | h
    · subst h
      have ht : t.filter (fun c => key c == key a) = [] := by
        apply filter_key_eq_nil
        exact hnd.1
      simp [List.filter_cons, ht]
    · have hne : ¬(key b = key a) := by
        intro hc
        exact hnd.1 (hc ▸ List.mem_map_of_mem key h)
      simp [List.filter_cons, hne, ih hnd.2 h]

/-- C6: GET /games sends exactly the Game rows of the store (a permutation of
the table) ordered by identifier ascending, for every store state, while
GET /players sends the Player rows in store default order. -/
theorem readGames_sorted_contract (db : DB) :
    readGames db none = .send (readGamesRows db) ∧
    (readGamesRows db).Perm db.games ∧
    ((readGamesRows db).map Game.id).Pairwise (fun a b => a ≤ b) ∧
    readPlayers db none = .send db.players := by
  refine ⟨rfl, List.mergeSort_perm _ _, ?_, rfl⟩
  have h := @List.sorted_mergeSort Game (fun a b => decide (a.id ≤ b.id))
    (fun a b c hab hbc => by
      simp only [decide_eq_true_eq] at *
      omega)
    (fun a b => by
      simp only [Bool.or_eq_true, decide_eq_true_eq]
      exact Nat.le_total a.id b.id)
    db.games
  rw [List.pairwise_map]
  exact h.imp (fun hab => by simpa using hab)

/-- C7: POST /players with a body holding name and email inserts exactly one new
Player row with those field values; the identifier is assigned by the store (a
free parameter of the model, never computed by the application) and is returned
as the response body. -/
theorem createPlayer_inserts_one_row (db : DB) (email name : String) (newId : Nat) :
    createPlayer db email name [newId] none =
      ({ db with players := db.players ++ [Player.mk newId email name] },
       .send (IdRow.mk newId)) := rfl

/-- C8: a statement failure in either step of a delete transaction rolls the
whole transaction back — the store is returned unchanged, so neither the
join-row deletions nor the parent deletion take effect — and the response is
the uniform generic 500 JSON, independent of the underlying error. -/
theorem delete_tx_failure_rolls_back (db : DB) (pid gid : Nat) (e : String)
    (f : Option String) :
    deletePlayer db pid (some e) f = (db, .statusJson 500 "An internal server error occurred") ∧
    deletePlayer db pid none (some e) = (db, .statusJson 500 "An internal server error occurred") ∧
    deleteGame db gid (some e) f = (db, .statusJson 500 "An internal server error occurred") ∧
    deleteGame db gid none (some e) = (db, .statusJson 500 "An internal server error occurred") :=
  ⟨rfl, rfl, rfl, rfl⟩

/-- C9: the shared not-found helper compares with JavaScript loose equality
against null, so both a null and an undefined result from the data-access layer
produce the bare 404 status, and any proper value is sent as the response body
unchanged; get player, update player, delete player and delete game all route
their results through this helper. -/
theorem returnDataOr404_loose_null (α : Type) (a : α) :
    returnDataOr404 (JsValue.undefined : JsValue α) = .sendStatus 404 ∧
    returnDataOr404 (JsValue.nullV : JsValue α) = .sendStatus 404 ∧
    returnDataOr404 (JsValue.val a) = .send (JsValue.val a) :=
  ⟨rfl, rfl, rfl⟩

/-- C10: POST /players can never respond 404: the insert is issued through the
one-row-required query, so every outcome other than exactly one returned row,
including zero returned rows, is a rejection that reaches the central error
handler and yields the generic 500. -/
theorem createPlayer_never_404 (db : DB) (email name : String) (ids : List Nat)
    (f : Option String) :
    (createPlayer db email name ids f).2 ≠ .sendStatus 404 ∧
    (createPlayer db email name [] none).2 =
      .statusJson 500 "An internal server error occurred" := by
  constructor
  · match f with
    | some e => simp [createPlayer, errorHandler]
    | none =>
      match ids with
      | [] => simp [createPlayer, one, errorHandler]
      | [i] => simp [createPlayer, one]
      | i :: j :: rest => simp [createPlayer, one, errorHandler]
  · rfl

/-- The store state after DELETE /players/:id is either the original state (the
transaction rolled back or nothing was modified) or the state with the
PlayerGame rows of the player and the Player row itself removed. -/
theorem deletePlayer_state (db : DB) (pid : Nat) (f1 f2 : Option String) :
    (deletePlayer db pid f1 f2).1 = db ∨
    (deletePlayer db pid f1 f2).1 =
      { players := db.players.filter (fun p => !(p.id == pid)),
        games := db.games,
        playerGames := db.playerGames.filter (fun pg => !(pg.playerID == pid)) } := by
  cases f1 with
  | some e => exact Or.inl rfl
  | none =>
    cases f2 with
    | some e => exact Or.inl rfl
    | none =>
      unfold deletePlayer
      dsimp only
      split
      · exact Or.inl rfl
      · exact Or.inr rfl

/-- The store state after DELETE /games/:id is either the original state or the
state with the PlayerGame rows of the game and the Game row itself removed. -/
theorem deleteGame_state (db : DB) (gid : Nat) (f1 f2 : Option String) :
    (deleteGame db gid f1 f2).1 = db ∨
    (deleteGame db gid f1 f2).1 =
      { players := db.players,
        games := db.games.filter (fun g => !(g.id == gid)),
        playerGames := db.playerGames.filter (fun pg => !(pg.gameID == gid)) } := by
  cases f1 with
  | some e => exact Or.inl rfl
  | none =>
    cases f2 with
    | some e => exact Or.inl rfl
    | none =>
      unfold deleteGame
      dsimp only
      split
      · exact Or.inl rfl
      · exact Or.inr rfl

/-- C1: the delete-player and delete-game operations remove the dependent
PlayerGame rows together with the parent row in one atomic step, so the
referential-integrity invariant is preserved: in every state reachable through
these operations no PlayerGame row references a deleted parent. -/
theorem deletes_preserve_noOrphans (db : DB) (pid gid : Nat)
    (f1 f2 g1 g2 : Option String) (h : noOrphans db) :
    noOrphans (deletePlayer db pid f1 f2).1 ∧ noOrphans (deleteGame db gid g1 g2).1 := by
  constructor
  · rcases deletePlayer_state db pid f1 f2 with heq | heq
    · rw [heq]; exact h
    · rw [heq]
      intro pg hpg
      rw [List.mem_filter] at hpg
      obtain ⟨hmem, hne⟩ := hpg
      simp only [Bool.not_eq_eq_eq_not, Bool.not_true, beq_eq_false_iff_ne, ne_eq] at hne
      obtain ⟨hp, hg⟩ := h pg hmem
      constructor
      · rw [List.mem_map] at hp ⊢
        obtain ⟨p, hpmem, hpid⟩ := hp
        refine ⟨p, List.mem_filter.mpr ⟨hpmem, ?_⟩, hpid⟩
        simp only [Bool.not_eq_eq_eq_not, Bool.not_true, beq_eq_false_iff_ne, ne_eq]
        intro hc
        exact hne (hpid ▸ hc)
      · exact hg
  · rcases deleteGame_state db gid g1 g2 with heq | heq
    · rw [heq]; exact h
    · rw [heq]
      intro pg hpg
      rw [List.mem_filter] at hpg
      obtain ⟨hmem, hne⟩ := hpg
      simp only [Bool.not_eq_eq_eq_not, Bool.not_true, beq_eq_false_iff_ne, ne_eq] at hne
      obtain ⟨hp, hg⟩ := h pg hmem
      refine ⟨hp, ?_⟩
      rw [List.mem_map] at hg ⊢
      obtain ⟨g, hgmem, hgid⟩ := hg
      refine ⟨g, List.mem_filter.mpr ⟨hgmem, ?_⟩, hgid⟩
      simp only [Bool.not_eq_eq_eq_not, Bool.not_true, beq_eq_false_iff_ne, ne_eq]
      intro hc
      exact hne (hgid ▸ hc)

/-- Witness for C1 at a concrete store state. -/
theorem deletes_preserve_noOrphans_witness :
    noOrphans dbEx ∧
    (noOrphans (deletePlayer dbEx 1 none none).1 ∧
     noOrphans (deleteGame dbEx 2 none none).1) :=
  ⟨by unfold noOrphans; decide,
   deletes_preserve_noOrphans dbEx 1 2 none none none none (by unfold noOrphans; decide)⟩

/-- C2: deleting a player or game whose parent row is absent still commits: the
resulting state keeps the PlayerGame deletions of step 1 (they are not rolled
back), and the response is the bare 404 status with empty body. -/
theorem delete_missing_parent_commits (db : DB) (pid gid : Nat)
    (hp : pid ∉ db.players.map Player.id) (hg : gid ∉ db.games.map Game.id) :
    deletePlayer db pid none none =
      ({ db with playerGames := db.playerGames.filter (fun pg => !(pg.playerID == pid)) },
       .sendStatus 404) ∧
    deleteGame db gid none none =
      ({ db with playerGames := db.playerGames.filter (fun pg => !(pg.gameID == gid)) },
       .sendStatus 404) := by
  constructor
  · have hret : db.players.filter (fun p => p.id == pid) = [] :=
      filter_key_eq_nil Player.id db.players pid hp
    have hkeep : db.players.filter (fun p => !(p.id == pid)) = db.players := by
      apply List.filter_eq_self.mpr
      intro p hpmem
      simp only [Bool.not_eq_eq_eq_not, Bool.not_true, beq_eq_false_iff_ne, ne_eq]
      intro hc
      exact hp (hc ▸ List.mem_map_of_mem Player.id hpmem)
    unfold deletePlayer
    dsimp only
    rw [hret, hkeep]
    rfl
  · have hret : db.games.filter (fun g => g.id == gid) = [] :=
      filter_key_eq_nil Game.id db.games gid hg
    have hkeep : db.games.filter (fun g => !(g.id == gid)) = db.games := by
      apply List.filter_eq_self.mpr
      intro g hgmem
      simp only [Bool.not_eq_eq_eq_not, Bool.not_true, beq_eq_false_iff_ne, ne_eq]
      intro hc
      exact hg (hc ▸ List.mem_map_of_mem Game.id hgmem)
    unfold deleteGame
    dsimp only
    rw [hret, hkeep]
    rfl

/-- Witness for C2 at a concrete store state and absent identifiers. -/
theorem delete_missing_parent_commits_witness :
    (4 ∉ dbEx.players.map Player.id) ∧ (7 ∉ dbEx.games.map Game.id) ∧
    (deletePlayer dbEx 4 none none =
      ({ dbEx with playerGames := dbEx.playerGames.filter (fun pg => !(pg.playerID == 4)) },
       .sendStatus 404) ∧
     deleteGame dbEx 7 none none =
      ({ dbEx with playerGames := dbEx.playerGames.filter (fun pg => !(pg.gameID == 7)) },
       .sendStatus 404)) :=
  ⟨by decide, by decide, delete_missing_parent_commits dbEx 4 7 (by decide) (by decide)⟩

/-- C4: GET /players/:id sends the matching Player row when one exists and the
bare 404 status with empty body when none matches; the distinction is made by
checking the optional query result for null, not by catching an exception. -/
theorem readPlayer_found_or_404 (db : DB) (pid : Nat)
    (hnd : (db.players.map Player.id).Nodup) :
    (∀ p ∈ db.players, p.id = pid → readPlayer db pid none = .send (JsValue.val p)) ∧
    (pid ∉ db.players.map Player.id → readPlayer db pid none = .sendStatus 404) := by
  constructor
  · intro p hp hid
    have h1 := filter_key_eq_singleton Player.id db.players p hnd hp
    rw [hid] at h1
    unfold readPlayer
    dsimp only
    rw [h1]
    rfl
  · intro hno
    have h1 : db.players.filter (fun q => q.id == pid) = [] :=
      filter_key_eq_nil Player.id db.players pid hno
    unfold readPlayer
    dsimp only
    rw [h1]
    rfl

/-- Witness for C4 at a concrete store state. -/
theorem readPlayer_found_or_404_witness :
    (dbEx.players.map Player.id).Nodup ∧
    ((∀ p ∈ dbEx.players, p.id = 1 → readPlayer dbEx 1 none = .send (JsValue.val p)) ∧
     (1 ∉ dbEx.players.map Player.id → readPlayer dbEx 1 none = .sendStatus 404)) :=
  ⟨by decide, readPlayer_found_or_404 dbEx 1 (by decide)⟩

/-- C5: PUT /players/:id mutates exactly the name and email fields of the
single row matching the identifier — the row keeps its id, every other row is
unchanged, and the Game and PlayerGame tables are untouched — and responds with
the identifier; when no row matches, it responds 404 and mutates no row. -/
theorem updatePlayer_frame (db : DB) (pid : Nat) (email name : String)
    (hnd : (db.players.map Player.id).Nodup) :
    (pid ∈ db.players.map Player.id →
      (updatePlayer db pid email name none).2 = .send (JsValue.val (IdRow.mk pid)) ∧
      (updatePlayer db pid email name none).1.games = db.games ∧
      (updatePlayer db pid email name none).1.playerGames = db.playerGames ∧
      (updatePlayer db pid email name none).1.players =
        db.players.map (fun p => if p.id = pid then Player.mk p.id email name else p) ∧
      (∀ q ∈ db.players, q.id ≠ pid → q ∈ (updatePlayer db pid email name none).1.players)) ∧
    (pid ∉ db.players.map Player.id →
      updatePlayer db pid email name none = (db, .sendStatus 404)) := by
  constructor
  · intro hmem
    obtain ⟨p, hp, hpid⟩ := List.mem_map.mp hmem
    have h1 := filter_key_eq_singleton Player.id db.players p hnd hp
    rw [hpid] at h1
    have hmap : db.players.map
        (fun q => if q.id == pid then { q with email := email, name := name } else q) =
        db.players.map (fun q => if q.id = pid then Player.mk q.id email name else q) := by
      apply List.map_congr_left
      intro q _
      by_cases hq : q.id = pid <;> simp [hq]
    refine ⟨?_, ?_, ?_, ?_, ?_⟩
    · unfold updatePlayer
      dsimp only
      rw [h1]
      simp [oneOrNone, returnDataOr404, jsOfOption, looseEqNull, hpid]
    · unfold updatePlayer
      dsimp only
      rw [h1]
      simp [oneOrNone]
    · unfold updatePlayer
      dsimp only
      rw [h1]
      simp [oneOrNone]
    · unfold updatePlayer
      dsimp only
      rw [h1]
      simp only [List.map_cons, List.map_nil, oneOrNone]
      exact hmap
    · intro q hq hqne
      unfold updatePlayer
      dsimp only
      rw [h1]
      simp only [List.map_cons, List.map_nil, oneOrNone]
      rw [hmap]
      apply List.mem_map.mpr
      exact ⟨q, hq, by simp [hqne]⟩
  · intro hno
    have h1 : db.players.filter (fun q => q.id == pid) = [] :=
      filter_key_eq_nil Player.id db.players pid hno
    have hmap : db.players.map
        (fun q => if q.id == pid then { q with email := email, name := name } else q) =
        db.players := by
      have : db.players.map
          (fun q => if q.id == pid then { q with email := email, name := name } else q) =
          db.players.map (fun q => q) := by
        apply List.map_congr_left
        intro q hq
        have hqne : ¬(q.id = pid) := by
          intro hc
          exact hno (hc ▸ List.mem_map_of_mem Player.id hq)
        simp [hqne]
      rw [this, List.map_id']
    unfold updatePlayer
    dsimp only
    rw [h1, hmap]
    rfl

/-- Witness for C5 at a concrete store state. -/
theorem updatePlayer_frame_witness :
    (dbEx.players.map Player.id).Nodup ∧
    ((3 ∈ dbEx.players.map Player.id →
      (updatePlayer dbEx 3 "new@calvin.edu" "Bobby" none).2 =
        .send (JsValue.val (IdRow.mk 3)) ∧
      (updatePlayer dbEx 3 "new@calvin.edu" "Bobby" none).1.games = dbEx.games ∧
      (updatePlayer dbEx 3 "new@calvin.edu" "Bobby" none).1.playerGames = dbEx.playerGames ∧
      (updatePlayer dbEx 3 "new@calvin.edu" "Bobby" none).1.players =
        dbEx.players.map
          (fun p => if p.id = 3 then Player.mk p.id "new@calvin.edu" "Bobby" else p) ∧
      (∀ q ∈ dbEx.players, q.id ≠ 3 →
        q ∈ (updatePlayer dbEx 3 "new@calvin.edu" "Bobby" none).1.players)) ∧
     (3 ∉ dbEx.players.map Player.id →
      updatePlayer dbEx 3 "new@calvin.edu" "Bobby" none = (dbEx, .sendStatus 404))) :=
  ⟨by decide, updatePlayer_frame dbEx 3 "new@calvin.edu" "Bobby" (by decide)⟩

/-- Summing a function that is 1 on every member counts the members. -/
theorem sum_map_ones {α : Type} (l : List α) (f : α → Nat) (h : ∀ a ∈ l, f a = 1) :
    (l.map f).sum = l.length := by
  induction l with
  | nil => rfl
  | cons a t ih =>
    simp only [List.map_cons, List.sum_cons, List.length_cons,
      h a (List.mem_cons_self a t), ih (fun b hb => h b (List.mem_cons_of_mem a hb))]
    omega

/-- C3: GET /games/:id sends, for every PlayerGame row with that game
identifier, exactly one entry carrying the joined player's identifier, name,
email and that player's score, ordered by player identifier ascending; with no
participants — in particular when the game identifier does not exist — it sends
the empty array, and it never responds 404. -/
theorem readGamePlayers_contract (db : DB) (gid : Nat)
    (hnd : (db.players.map Player.id).Nodup)
    (href : ∀ pg ∈ db.playerGames, pg.gameID = gid →
      pg.playerID ∈ db.players.map Player.id) :
    readGamePlayers db gid none = .send (readGamePlayersRows db gid) ∧
    (readGamePlayersRows db gid).length =
      (db.playerGames.filter (fun pg => pg.gameID == gid)).length ∧
    (∀ r ∈ readGamePlayersRows db gid, ∃ pg ∈ db.playerGames, pg.gameID = gid ∧
      ∃ p ∈ db.players, p.id = pg.playerID ∧
        r = GamePlayerRow.mk p.id p.name p.email pg.score) ∧
    ((readGamePlayersRows db gid).map GamePlayerRow.id).Pairwise (fun a b => a ≤ b) ∧
    (db.playerGames.filter (fun pg => pg.gameID == gid) = [] →
      readGamePlayers db gid none = .send []) ∧
    (∀ f : Option String, readGamePlayers db gid f ≠ .sendStatus 404) := by
  refine ⟨rfl, ?_, ?_, ?_, ?_, ?_⟩
  · unfold readGamePlayersRows
    rw [(List.mergeSort_perm _ _).length_eq]
    unfold gamePlayersJoin
    rw [List.length_flatMap]
    apply sum_map_ones
    intro pg hpg
    simp only [Function.comp_apply]
    rw [List.mem_filter] at hpg
    obtain ⟨hmem, hgid⟩ := hpg
    rw [beq_iff_eq] at hgid
    obtain ⟨p, hp, hpid⟩ := List.mem_map.mp (href pg hmem hgid)
    rw [List.length_map]
    have h1 := filter_key_eq_singleton Player.id db.players p hnd hp
    rw [hpid] at h1
    rw [h1]
    rfl
  · intro r hr
    have hr2 : r ∈ gamePlayersJoin db gid := (List.mergeSort_perm _ _).mem_iff.mp hr
    unfold gamePlayersJoin at hr2
    rw [List.mem_flatMap] at hr2
    obtain ⟨pg, hpg, hr3⟩ := hr2
    rw [List.mem_filter, beq_iff_eq] at hpg
    rw [List.mem_map] at hr3
    obtain ⟨p, hp, hr4⟩ := hr3
    rw [List.mem_filter, beq_iff_eq] at hp
    exact ⟨pg, hpg.1, hpg.2, p, hp.1, hp.2, hr4.symm⟩
  · have h := @List.sorted_mergeSort GamePlayerRow (fun a b => decide (a.id ≤ b.id))
      (fun a b c hab hbc => by
        simp only [decide_eq_true_eq] at *
        omega)
      (fun a b => by
        simp only [Bool.or_eq_true, decide_eq_true_eq]
        exact Nat.le_total a.id b.id)
      (gamePlayersJoin db gid)
    rw [List.pairwise_map]
    exact h.imp (fun hab => by simpa using hab)
  · intro hnil
    unfold readGamePlayers readGamePlayersRows gamePlayersJoin
    rw [hnil]
    simp
  · intro f
    cases f with
    | some e => simp [readGamePlayers, errorHandler]
    | none => simp [readGamePlayers]

/-- Witness for C3 at a concrete store state. -/
theorem readGamePlayers_contract_witness :
    (dbEx.players.map Player.id).Nodup ∧
    (∀ pg ∈ dbEx.playerGames, pg.gameID = 2 →
      pg.playerID ∈ dbEx.players.map Player.id) ∧
    (readGamePlayers dbEx 2 none = .send (readGamePlayersRows dbEx 2) ∧
     (readGamePlayersRows dbEx 2).length =
       (dbEx.playerGames.filter (fun pg => pg.gameID == 2)).length ∧
     (∀ r ∈ readGamePlayersRows dbEx 2, ∃ pg ∈ dbEx.playerGames, pg.gameID = 2 ∧
       ∃ p ∈ dbEx.players, p.id = pg.playerID ∧
         r = GamePlayerRow.mk p.id p.name p.email pg.score) ∧
     ((readGamePlayersRows dbEx 2).map GamePlayerRow.id).Pairwise (fun a b => a ≤ b) ∧
     (dbEx.playerGames.filter (fun pg => pg.gameID == 2) = [] →
       readGamePlayers dbEx 2 none = .send []) ∧
     (∀ f : Option String, readGamePlayers dbEx 2 f ≠ .sendStatus 404)) :=
  ⟨by decide, by decide, readGamePlayers_contract dbEx 2 (by decide) (by decide)⟩

end MonopolyService
